import Mathlib

/-!
# Verification of the green-fashion wardrobe application

Shallow embedding of the parts of the repository that the specification's
testable properties talk about:

* `MongoDBManager` item-store CRUD and aggregation
  (`packages/green_fashion/green_fashion/database/mongodb_manager.py`),
* the `delete_item` API endpoint together with `GCSService.delete_image`
  (`services/api/src/main.py`, `packages/.../storage/gcs_service.py`),
* the color-palette extractor
  (`packages/.../color_extracting/color_palette_extractor.py`),
* the classifier pipeline (`services/classifier_api/src/main.py`,
  `streamlit_app/clothing_classifier.py`) and the account upserts
  (`MongoDBManager.create_or_get_user`, `google_auth_v2`).

Documents are modelled as ordered association lists of string keys and
BSON-like values; Python `dict` equality is key-value equality, captured by
`Doc.equiv`.  Mongo collections are lists of documents in insertion order
(`find_one` returns the first match).  `datetime.now()` is an abstract tick
counter threaded explicitly; each call to it advances the counter.  Driver
exceptions are injected through an explicit `fault : Option String`
parameter standing for "the underlying pymongo call raised".
-/

namespace GreenFashion

/-- A BSON-like value stored in a document.  `oid s` is an `ObjectId`
whose canonical (lowercase hex) string form is `s`; `time t` is a
`datetime` modelled as an abstract tick. -/
inductive BVal where
  | str (s : String)
  | oid (s : String)
  | time (t : Nat)
  | int (n : Int)
  | null
  deriving DecidableEq, Repr

/-- A document: an association list in key insertion order. -/
abbrev Doc := List (String × BVal)

/-- First value bound to key `k`, like Python `d.get(k)`. -/
def getField (d : Doc) (k : String) : Option BVal :=
  (d.find? (fun p => p.1 = k)).map Prod.snd

/-- Python `d[k] = v`: replace the value in place if the key exists,
otherwise append the binding. -/
def setField (d : Doc) (k : String) (v : BVal) : Doc :=
  match d with
  | [] => [(k, v)]
  | p :: ps => if p.1 = k then (k, v) :: ps else p :: setField ps k v

/-- Python dict equality: same value (or absence) at every key. -/
def Doc.equiv (d₁ d₂ : Doc) : Prop :=
  ∀ k, getField d₁ k = getField d₂ k

/-- `str(value)` as applied by the manager when it stringifies `_id` and
`user_id` fields: `str` of an `ObjectId` is its hex string. -/
def pyStr : BVal → String
  | .str s => s
  | .oid s => s
  | .time t => toString t
  | .int n => toString n
  | .null => "None"

/-- `ObjectId(s)` succeeds exactly on 24-character lowercase-hex strings
(the canonical form, for which `str(ObjectId(s)) = s`); on anything else
it raises, modelled by `none`. -/
def isValidOid (s : String) : Bool :=
  s.length = 24 && s.data.all (fun c => c.isDigit || ("abcdef".data.contains c))

def objectIdOfString (s : String) : Option String :=
  if isValidOid s then some s else none

/-- Python truthiness of the optional `user_id` argument
(`if user_id:`): `None` and the empty string are falsy. -/
def truthy : Option String → Bool
  | none => false
  | some s => !(s = "")

@[simp] theorem getField_nil (k : String) : getField [] k = none := rfl

theorem getField_cons (p : String × BVal) (d : Doc) (k : String) :
    getField (p :: d) k = if p.1 = k then some p.2 else getField d k := by
  by_cases h : p.1 = k <;> simp [getField, List.find?_cons, h]

@[simp] theorem getField_setField_same (d : Doc) (k : String) (v : BVal) :
    getField (setField d k v) k = some v := by
  induction d with
  | nil => simp [setField, getField]
  | cons p ps ih =>
    by_cases h : p.1 = k
    · simp [setField, h, getField_cons]
    · simp [setField, h, getField_cons, ih]

theorem getField_setField_other (d : Doc) (k k' : String) (v : BVal)
    (h : k ≠ k') : getField (setField d k v) k' = getField d k' := by
  induction d with
  | nil => simp [setField, getField_cons, h]
  | cons p ps ih =>
    by_cases hp : p.1 = k
    · simp [setField, hp, getField_cons, h, hp ▸ h]
    · simp [setField, hp, getField_cons, ih]

/-! ## Item store: `MongoDBManager` CRUD over the `clothing_items` collection

A collection is a list of documents in insertion order.  Each manager
method wraps its body in `try/except`; the `fault` argument injects an
exception raised by the underlying driver call (`none` = the call
succeeds). -/

/-- The query filter `{"_id": ObjectId(item_id)}` plus the optional
`{"user_id": ObjectId(user_id)}` conjunct used by `get_item_by_id`,
`update_item` and `delete_item`. -/
def matchesItemQuery (iid : String) (uq : Option String) (d : Doc) : Bool :=
  getField d "_id" == some (.oid iid) &&
    match uq with
    | none => true
    | some u => getField d "user_id" == some (.oid u)

/-- Resolve the optional `user_id` argument to an optional owner filter.
`none` result: `ObjectId(user_id)` raised (caught by the `except`
block); `some none`: no owner filter (falsy argument); `some (some u)`:
filter on owner `u`. -/
def ownerQuery : Option String → Option (Option String)
  | none => some none
  | some s =>
    if s = "" then some none
    else match objectIdOfString s with
      | some u => some (some u)
      | none => none

/-- `item["_id"] = str(item["_id"])` and likewise for `user_id`, as done
by every read path before returning a document. -/
def stringifyDoc (d : Doc) : Doc :=
  let d₁ := match getField d "_id" with
    | some v => setField d "_id" (.str (pyStr v))
    | none => d
  match getField d₁ "user_id" with
  | some v => setField d₁ "user_id" (.str (pyStr v))
  | none => d₁

/-- `MongoDBManager.add_clothing_item`: stamp `created_at` and
`updated_at` with two successive `datetime.now()` calls, convert a
present `user_id` to an `ObjectId`, insert, and return the inserted id
as a string.  `fresh` is the `ObjectId` generated by the driver for a
document without `_id`; `now` is the current clock tick.  Any raised
exception (driver fault, bad `user_id`) is caught and `None` returned
with the collection untouched. -/
def add_clothing_item (fault : Option String) (docs : List Doc)
    (item_data : Doc) (now : Nat) (fresh : String) :
    Option String × List Doc :=
  if fault.isSome then (none, docs)
  else
    let d₁ := setField item_data "created_at" (.time now)
    let d₂ := setField d₁ "updated_at" (.time (now + 1))
    let d₃? : Option Doc :=
      match getField d₂ "user_id" with
      | none => some d₂
      | some (.str s) =>
        match objectIdOfString s with
        | some u => some (setField d₂ "user_id" (.oid u))
        | none => none
      | some (.oid u) => some (setField d₂ "user_id" (.oid u))
      | some _ => none
    match d₃? with
    | none => (none, docs)
    | some d₃ =>
      match getField d₃ "_id" with
      | some v => (some (pyStr v), docs ++ [d₃])
      | none => (some fresh, docs ++ [setField d₃ "_id" (.oid fresh)])

/-- `MongoDBManager.get_item_by_id`: `find_one` on the id (and owner)
query, then stringify `_id`/`user_id`.  Exceptions yield `None`. -/
def get_item_by_id (fault : Option String) (docs : List Doc)
    (item_id : String) (user_id : Option String) : Option Doc :=
  if fault.isSome then none
  else
    match objectIdOfString item_id with
    | none => none
    | some iid =>
      match ownerQuery user_id with
      | none => none
      | some uq =>
        (docs.find? (matchesItemQuery iid uq)).map stringifyDoc

/-- `MongoDBManager.get_all_items`: `find({"user_id": ObjectId(user_id)})`
with stringified ids.  (`user_id` is mandatory here.) -/
def get_all_items (fault : Option String) (docs : List Doc)
    (user_id : String) : List Doc :=
  if fault.isSome then []
  else
    match objectIdOfString user_id with
    | none => []
    | some u =>
      (docs.filter (fun d => getField d "user_id" == some (.oid u))).map
        stringifyDoc

/-- `update_one` semantics: apply `f` to the first element satisfying
`p`, leave the rest alone. -/
def updateFirstWhere {α : Type} (p : α → Bool) (f : α → α) : List α → List α
  | [] => []
  | a :: l => if p a then f a :: l else a :: updateFirstWhere p f l

/-- Apply a `$set` document: write each binding in order. -/
def applySet (upd : Doc) (d : Doc) : Doc :=
  upd.foldl (fun a p => setField a p.1 p.2) d

/-- `MongoDBManager.update_item`: stamp `updated_at` on the update set,
`$set` it on the first document matching the query, return whether a
document was modified (`modified_count > 0`; the stamped `updated_at`
differs from the stored one whenever the clock has ticked since the last
write, so a matched update counts as modified). -/
def update_item (fault : Option String) (docs : List Doc)
    (item_id : String) (updates : Doc) (user_id : Option String) (now : Nat) :
    Bool × List Doc :=
  if fault.isSome then (false, docs)
  else
    match objectIdOfString item_id with
    | none => (false, docs)
    | some iid =>
      match ownerQuery user_id with
      | none => (false, docs)
      | some uq =>
        let upd := setField updates "updated_at" (.time now)
        match docs.find? (matchesItemQuery iid uq) with
        | none => (false, docs)
        | some _ =>
          (true, updateFirstWhere (matchesItemQuery iid uq) (applySet upd) docs)

/-- `MongoDBManager.delete_item`: `delete_one` on the query — remove the
first matching document — and report whether one was deleted. -/
def delete_item (fault : Option String) (docs : List Doc)
    (item_id : String) (user_id : Option String) : Bool × List Doc :=
  if fault.isSome then (false, docs)
  else
    match objectIdOfString item_id with
    | none => (false, docs)
    | some iid =>
      match ownerQuery user_id with
      | none => (false, docs)
      | some uq =>
        match docs.find? (matchesItemQuery iid uq) with
        | none => (false, docs)
        | some _ => (true, docs.eraseP (matchesItemQuery iid uq))

/-- Substring/regex match used by `search_items` (the `$regex` with
case-insensitive option); the exact regex semantics are irrelevant to
the claims, a case-insensitive substring test is its plain-pattern
behaviour. -/
def regexMatches (pat : String) (v : Option BVal) : Bool :=
  match v with
  | some (.str s) => (s.toLower.splitOn pat.toLower).length > 1 || pat = ""
  | _ => false

/-- `MongoDBManager.search_items`: `$or` across `custom_name`,
`category`, `display_name`, optionally owner-scoped. -/
def search_items (fault : Option String) (docs : List Doc)
    (query : String) (user_id : Option String) : List Doc :=
  if fault.isSome then []
  else
    match ownerQuery user_id with
    | none => []
    | some uq =>
      (docs.filter (fun d =>
        (regexMatches query (getField d "custom_name") ||
          regexMatches query (getField d "category") ||
          regexMatches query (getField d "display_name")) &&
        match uq with
        | none => true
        | some u => getField d "user_id" == some (.oid u))).map stringifyDoc

/-- `MongoDBManager.get_items_by_category`. -/
def get_items_by_category (fault : Option String) (docs : List Doc)
    (category : String) (user_id : Option String) : List Doc :=
  if fault.isSome then []
  else
    match ownerQuery user_id with
    | none => []
    | some uq =>
      (docs.filter (fun d =>
        getField d "category" == some (.str category) &&
        match uq with
        | none => true
        | some u => getField d "user_id" == some (.oid u))).map stringifyDoc

/-- The owner filter shared by `get_item_count` and
`get_category_counts` (`{}` or `{"user_id": ObjectId(user_id)}`). -/
def matchesOwner (uq : Option String) (d : Doc) : Bool :=
  match uq with
  | none => true
  | some u => getField d "user_id" == some (.oid u)

/-- First-occurrence deduplication: the iteration order of a Python
`Counter`/`dict` built by scanning a list. -/
def firstDedup {α : Type} [DecidableEq α] : List α → List α
  | [] => []
  | a :: l => a :: firstDedup (l.filter (fun b => b ≠ a))
termination_by l => l.length
decreasing_by
  simp only [List.length_cons]
  exact Nat.lt_succ_of_le (List.length_filter_le _ _)

/-- `MongoDBManager.get_categories`: `distinct("category", query)`. -/
def get_categories (fault : Option String) (docs : List Doc)
    (user_id : Option String) : List (Option BVal) :=
  if fault.isSome then []
  else
    match ownerQuery user_id with
    | none => []
    | some uq =>
      firstDedup ((docs.filter (matchesOwner uq)).map
        (fun d => getField d "category"))

/-- `MongoDBManager.get_item_count`: `count_documents(query)`. -/
def get_item_count (fault : Option String) (docs : List Doc)
    (user_id : Option String) : Nat :=
  if fault.isSome then 0
  else
    match ownerQuery user_id with
    | none => 0
    | some uq => (docs.filter (matchesOwner uq)).length

/-- Descending order on the count component, the `{"$sort": {"count": -1}}`
stage. -/
def countDesc {α : Type} (a b : α × Nat) : Prop := b.2 ≤ a.2

instance {α : Type} : DecidableRel (@countDesc α) :=
  fun a b => inferInstanceAs (Decidable (b.2 ≤ a.2))

instance {α : Type} : IsTotal (α × Nat) countDesc :=
  ⟨fun a b => (Nat.le_total b.2 a.2).imp id id⟩

instance {α : Type} : IsTrans (α × Nat) countDesc :=
  ⟨fun _ _ _ h h' => Nat.le_trans h' h⟩

/-- `MongoDBManager.get_category_counts`: the aggregation pipeline
`$match` (owner) → `$group` by `$category` with `{"$sum": 1}` →
`$sort` by count descending, collected into a dict keyed by the group
key.  A document without a `category` field groups under the missing
key (`none`), as Mongo groups such documents under `null`. -/
def get_category_counts (fault : Option String) (docs : List Doc)
    (user_id : Option String) : List ((Option BVal) × Nat) :=
  if fault.isSome then []
  else
    match ownerQuery user_id with
    | none => []
    | some uq =>
      let matched := docs.filter (matchesOwner uq)
      let keys := firstDedup (matched.map (fun d => getField d "category"))
      List.insertionSort countDesc
        (keys.map (fun k =>
          (k, matched.countP (fun d => getField d "category" = k))))

/-! ## The `DELETE /v1/items/{item_id}` endpoint and the blob store

`services/api/src/main.py::delete_item` fetches the item, deletes the
database record, and only then best-effort-deletes the blob named by the
item's `path` field, swallowing (logging) any storage exception.
`GCSService.delete_image` deletes the blob if it exists and raises
`GoogleCloudError` on storage failure. -/

/-- The blob store: the set of existing object paths, plus a fault flag
`raises`: when set, any `delete_image` call raises `GoogleCloudError`. -/
structure BlobStore where
  paths : List String
  raises : Bool
  deriving Repr, DecidableEq

/-- `GCSService.delete_image`: `Except` models the raised
`GoogleCloudError`; otherwise `True` if the blob existed and was
deleted, `False` if it did not exist. -/
def delete_image (bs : BlobStore) (gcs_path : String) :
    Except String (Bool × BlobStore) :=
  if bs.raises then .error "Failed to delete image"
  else if gcs_path ∈ bs.paths then
    .ok (true, { bs with paths := bs.paths.erase gcs_path })
  else .ok (false, bs)

/-- HTTP outcome of the endpoint. -/
inductive ApiResponse where
  | ok (message : String)
  | httpError (code : Nat) (detail : String)
  deriving Repr, DecidableEq

/-- Combined application state seen by the endpoint. -/
structure ApiState where
  items : List Doc
  blobs : BlobStore
  deriving Repr, DecidableEq

/-- Python truthiness of `item.get("path")`. -/
def truthyPath : Option BVal → Option String
  | some (.str s) => if s = "" then none else some s
  | _ => none

/-- `delete_item` endpoint: 404 if the item is not found for this owner;
delete the database record; then, if the item had a truthy `path`,
attempt blob deletion and swallow any storage exception. -/
def delete_item_endpoint (dbFault : Option String) (st : ApiState)
    (item_id current_user_id : String) : ApiResponse × ApiState :=
  match get_item_by_id dbFault st.items item_id (some current_user_id) with
  | none => (.httpError 404 "Item not found", st)
  | some item =>
    let (success, items') :=
      delete_item dbFault st.items item_id (some current_user_id)
    if !success then
      (.httpError 500 "Failed to delete item from database",
        { st with items := items' })
    else
      let blobs' :=
        match truthyPath (getField item "path") with
        | none => st.blobs
        | some p =>
          match delete_image st.blobs p with
          | .ok (_, bs') => bs'
          | .error _ => st.blobs       -- caught: only logged
      (.ok "Item deleted successfully", { items := items', blobs := blobs' })

/-- The endpoint's item query (`_id` and owner), with the `ObjectId`
validations folded in. -/
def itemOwnerPred (item_id uid : String) (d : Doc) : Bool :=
  match objectIdOfString item_id, ownerQuery (some uid) with
  | some iid, some uq => matchesItemQuery iid uq d
  | _, _ => false

/-! ## Color-palette extractor

`color_palette_extractor.py::extract_color_palette`, from the point where
the RGBA pixel array exists.  Background removal, resizing and the
`AgglomerativeClustering.fit_predict` call are third-party; the clustering
is abstracted as a function `cluster` from the selected foreground pixels
to one integer label per pixel.  Pixel channels are naturals, percentages
are rationals (the float arithmetic read over ℚ). -/

/-- An RGBA pixel. -/
structure RGBA where
  r : Nat
  g : Nat
  b : Nat
  a : Nat
  deriving Repr, DecidableEq

abbrev RGB := Nat × Nat × Nat

/-- The foreground-selection cascade of `extract_color_palette`
(lines 28–40): the mask `alpha > alpha_threshold`; if it selects
nothing, the fallback mask `alpha > 64`; if still nothing, the mask
`alpha > 0`.  Returns the selected pixels' RGB components
(`pixels_rgba[foreground_mask][:, :3]`). -/
def select_foreground (pixels_rgba : List RGBA) (alpha_threshold : Nat) :
    List RGBA :=
  let m₁ := pixels_rgba.filter (fun p => alpha_threshold < p.a)
  if m₁ ≠ [] then m₁
  else
    let m₂ := pixels_rgba.filter (fun p => 64 < p.a)
    if m₂ ≠ [] then m₂
    else pixels_rgba.filter (fun p => 0 < p.a)

/-- Modelled from the spec: the selection cascade as §4.1 describes it —
"select pixels whose alpha exceeds a threshold, falling back … (threshold
→ half → any nonzero alpha)", i.e. the middle mask uses half the *given*
threshold.  Used only to compare against `select_foreground`. -/
def select_foreground_spec (pixels_rgba : List RGBA) (alpha_threshold : Nat) :
    List RGBA :=
  let m₁ := pixels_rgba.filter (fun p => alpha_threshold < p.a)
  if m₁ ≠ [] then m₁
  else
    let m₂ := pixels_rgba.filter (fun p => alpha_threshold / 2 < p.a)
    if m₂ ≠ [] then m₂
    else pixels_rgba.filter (fun p => 0 < p.a)

/-- Ascending order on labels: `np.unique` returns the distinct labels
sorted ascending. -/
def natAsc (a b : Nat) : Prop := a ≤ b

instance : DecidableRel natAsc := fun a b => inferInstanceAs (Decidable (a ≤ b))
instance : IsTotal Nat natAsc := ⟨Nat.le_total⟩
instance : IsTrans Nat natAsc := ⟨fun _ _ _ => Nat.le_trans⟩

/-- `np.unique`: the distinct values in ascending order. -/
def npUnique (labels : List Nat) : List Nat :=
  List.insertionSort natAsc (firstDedup labels)

/-- Mean of the pixels assigned to `label`, truncated to integers
(`.astype(int)` on non-negative means is truncation). -/
def clusterMeanColor (pixels : List RGB) (labels : List Nat) (label : Nat) :
    Int × Int × Int :=
  let sel := ((labels.zip pixels).filter (fun p => p.1 = label)).map Prod.snd
  let n : ℚ := sel.length
  (⌊(sel.map (fun c => (c.1 : ℚ))).sum / n⌋,
    ⌊(sel.map (fun c => (c.2.1 : ℚ))).sum / n⌋,
    ⌊(sel.map (fun c => (c.2.2 : ℚ))).sum / n⌋)

/-- Descending order on the percentage component:
`palette.sort(key=lambda x: x[1], reverse=True)`. -/
def pctDesc {α : Type} (a b : α × ℚ) : Prop := b.2 ≤ a.2

instance {α : Type} : DecidableRel (@pctDesc α) :=
  fun a b => inferInstanceAs (Decidable (b.2 ≤ a.2))

instance {α : Type} : IsTotal (α × ℚ) pctDesc :=
  ⟨fun a b => (le_total b.2 a.2).imp id id⟩

instance {α : Type} : IsTrans (α × ℚ) pctDesc :=
  ⟨fun _ _ _ h h' => le_trans h' h⟩

/-- Lines 50–61 of `extract_color_palette`: per-cluster mean colors in
`np.unique` label order, per-cluster percentages
`count / len(labels) * 100` in `Counter` (first-occurrence) order,
zipped together and sorted by percentage descending. -/
def paletteFromLabels (pixels : List RGB) (labels : List Nat) :
    List ((Int × Int × Int) × ℚ) :=
  let colors := (npUnique labels).map (clusterMeanColor pixels labels)
  let percentages := (firstDedup labels).map
    (fun lab => ((labels.count lab : ℚ) / (labels.length : ℚ)) * 100)
  List.insertionSort pctDesc (colors.zip percentages)

/-- `extract_color_palette` from the RGBA pixel list on: select the
foreground, cluster its RGB pixels with the third-party clusterer
(one label per pixel), and build the sorted palette. -/
def extract_color_palette (pixels_rgba : List RGBA)
    (cluster : List RGB → List Nat) (alpha_threshold : Nat := 128) :
    List ((Int × Int × Int) × ℚ) :=
  let pixels := (select_foreground pixels_rgba alpha_threshold).map
    (fun p => (p.r, p.g, p.b))
  paletteFromLabels pixels (cluster pixels)

/-! ## Account upserts

`MongoDBManager.create_or_get_user` (Mongo `users` collection) and the
SQL upsert inside `google_auth_v2` (`services/api/src/main.py`). -/

/-- The identity fields extracted from a verified Google token. -/
structure GoogleUser where
  google_id : String
  email : String
  name : String
  picture : Option String
  deriving Repr, DecidableEq

/-- `MongoDBManager.create_or_get_user`: look up by `google_id`; if
found, stamp `last_login` on that record (via `update_one` on its `_id`)
and return the record *as fetched*; otherwise insert a fresh record with
`created_at`/`last_login` from two successive `datetime.utcnow()` calls.
No `try/except` wraps this method. -/
def create_or_get_user (users : List Doc) (g : GoogleUser) (now : Nat)
    (fresh : String) : Doc × List Doc :=
  match users.find? (fun u => getField u "google_id" == some (.str g.google_id)) with
  | some existing =>
    (existing,
      updateFirstWhere (fun d => getField d "_id" == getField existing "_id")
        (fun d => setField d "last_login" (.time now)) users)
  | none =>
    let base : Doc :=
      [("google_id", .str g.google_id), ("email", .str g.email),
        ("name", .str g.name),
        ("picture", match g.picture with
          | some p => .str p
          | none => .null),
        ("created_at", .time now), ("last_login", .time (now + 1))]
    let doc := setField base "_id" (.oid fresh)
    (doc, users ++ [doc])

/-- A row of the relational `account` table. -/
structure Account where
  auth_provider_id : String
  auth_provider : String
  email : String
  name : Option String
  picture_url : Option String
  created_at : Nat
  last_login : Nat
  deriving Repr, DecidableEq

/-- The `INSERT … ON DUPLICATE KEY UPDATE` issued by `google_auth_v2`:
on a unique-key collision (`auth_provider_id` or `email`) the existing
row's `email`, `name`, `picture_url` are overwritten with the token's
values and `last_login` is stamped; otherwise a new row is inserted. -/
def googleAuthUpsert (accounts : List Account) (apid email : String)
    (name picture_url : Option String) (now : Nat) : List Account :=
  match accounts.find?
      (fun a => a.auth_provider_id == apid || a.email == email) with
  | some _ =>
    updateFirstWhere (fun a => a.auth_provider_id == apid || a.email == email)
      (fun a =>
        { a with email := email, name := name, picture_url := picture_url,
                 last_login := now }) accounts
  | none =>
    accounts ++ [{ auth_provider_id := apid, auth_provider := "google",
                   email := email, name := name, picture_url := picture_url,
                   created_at := now, last_login := now }]

/-! ## Classifier pipeline

`services/classifier_api/src/main.py::classify_item` and
`streamlit_app/clothing_classifier.py::classify_fashion_image`.  The
pretrained CLIP model is external data: it is abstracted as a pure
function from the text prompts and the (preprocessed) image to one
logit per prompt — `preprocess_image` is itself a pure function of the
uploaded bytes, so it is absorbed into that abstraction.  Float
arithmetic is read over ℝ, so `torch.softmax` is the exact softmax. -/

/-- Uploaded image bytes. -/
abbrev ImageData := List Nat

/-- The loaded model: prompts and image to `logits_per_image[0]`. -/
abbrev ModelFun := List String → ImageData → List ℝ

/-- The fixed category list `CLOTHING_CATEGORIES`
(`green_fashion/database/config.py`). -/
def CLOTHING_CATEGORIES : List String :=
  ["dress", "shirt", "t-shirt", "longsleeve", "pants", "shorts", "skirt",
    "shoes", "hat", "outwear", "other"]

/-- Python `str.strip()` for ASCII whitespace: drop leading and
trailing whitespace characters. -/
def pyStrip (s : String) : String :=
  String.mk ((s.data.dropWhile Char.isWhitespace).reverse.dropWhile
    Char.isWhitespace).reverse

/-- `torch.softmax` over the logit row. -/
noncomputable def softmax (logits : List ℝ) : List ℝ :=
  logits.map (fun x => Real.exp x / (logits.map Real.exp).sum)

/-- Descending order on the confidence component:
`sort(key=lambda x: x["confidence"], reverse=True)`. -/
def confDesc (a b : String × ℝ) : Prop := b.2 ≤ a.2

noncomputable instance : DecidableRel confDesc :=
  fun _ _ => Classical.dec _

instance : IsTotal (String × ℝ) confDesc :=
  ⟨fun a b => (le_total b.2 a.2).imp id id⟩

instance : IsTrans (String × ℝ) confDesc :=
  ⟨fun _ _ _ h h' => le_trans h' h⟩

/-- The shared inference core: build one prompt `"a photo of {cat}"` per
category, score them against the image, softmax the logits, label each
probability with its stripped category, sort by confidence descending.
(The code indexes `probs[0][i]` for each category; with one logit per
prompt, as the model returns, this is the zip below.) -/
noncomputable def rankCategories (m : ModelFun) (categories : List String)
    (img : ImageData) : List (String × ℝ) :=
  let prompts := categories.map (fun c => "a photo of " ++ pyStrip c)
  let probs := softmax (m prompts img)
  List.insertionSort confDesc ((categories.map pyStrip).zip probs)

/-- `clothing_classifier.py::classify_fashion_image`: returns `[]` when
the cached model failed to load, otherwise the full ranked list. -/
noncomputable def classify_fashion_image (model : Option ModelFun)
    (categories : List String) (img : ImageData) : List (String × ℝ) :=
  match model with
  | none => []
  | some m => rankCategories m categories img

/-- Response of the `/classify` endpoint. -/
inductive ClassifyResponse where
  | message (s : String)
  | httpError (code : Nat)

/-- Process-wide `lru_cache(maxsize=1)` slot of `get_cached_model`:
empty, or filled with the load result (which is itself `None` when
loading failed — failures are cached too). -/
structure ClassifierProc where
  cache : Option (Option ModelFun)

/-- `get_cached_model`: return the cached load result, or load
(`pretrained` — a fixed function of the fixed weights) and cache it. -/
def get_cached_model (pretrained : Option ModelFun) (p : ClassifierProc) :
    Option ModelFun × ClassifierProc :=
  match p.cache with
  | some r => (r, p)
  | none => (pretrained, { cache := some pretrained })

/-- `classifier_api/src/main.py::classify_item`: 503 when the model is
unavailable; otherwise rank the fixed categories and answer with the
top label only.  An empty ranking would make `results[0]` raise, which
the handler catches into a 503. -/
noncomputable def classify_item_endpoint (pretrained : Option ModelFun)
    (p : ClassifierProc) (img : ImageData) :
    ClassifyResponse × ClassifierProc :=
  let (m?, p') := get_cached_model pretrained p
  match m? with
  | none => (.httpError 503, p')
  | some m =>
    match rankCategories m CLOTHING_CATEGORIES img with
    | [] => (.httpError 503, p')
    | top :: _ => (.message top.1, p')

/-! ## General lemmas -/

theorem mem_of_mem_firstDedup {α : Type} [DecidableEq α] {x : α} :
    ∀ {l : List α}, x ∈ firstDedup l → x ∈ l := by
  intro l
  induction l using firstDedup.induct with
  | case1 => simp [firstDedup]
  | case2 a l ih =>
    rw [firstDedup]
    intro h
    rcases List.mem_cons.mp h with h | h
    · simp [h]
    · exact List.mem_cons_of_mem _ (List.mem_of_mem_filter (ih h))

theorem countP_add_countP_not {α : Type} (p : α → Bool) (l : List α) :
    l.countP p + l.countP (fun a => !(p a)) = l.length := by
  induction l with
  | nil => rfl
  | cons a l ih => by_cases h : p a <;> simp [List.countP_cons, h] <;> omega

/-- Summing, over each distinct element, its number of occurrences gives
the length of the list. -/
theorem sum_counts_firstDedup {α : Type} [DecidableEq α] (l : List α) :
    ((firstDedup l).map (fun a => l.countP (fun b => b = a))).sum
      = l.length := by
  induction l using firstDedup.induct with
  | case1 => simp [firstDedup]
  | case2 a l ih =>
    rw [firstDedup, List.map_cons, List.sum_cons]
    have hmap : (firstDedup (l.filter (fun b => b ≠ a))).map
          (fun b => (a :: l).countP (fun c => c = b))
        = (firstDedup (l.filter (fun b => b ≠ a))).map
          (fun b => (l.filter (fun c => c ≠ a)).countP (fun c => c = b)) := by
      apply List.map_congr_left
      intro b hb
      have hba : b ≠ a := by
        simpa using List.of_mem_filter (mem_of_mem_firstDedup hb)
      rw [List.countP_cons, if_neg (by simpa using Ne.symm hba),
        List.countP_filter]
      apply List.countP_congr
      intro x _
      constructor
      · intro hx
        have hxb : x = b := of_decide_eq_true hx
        simp [hxb, hba]
      · intro hx
        simp only [Bool.and_eq_true] at hx
        exact hx.1
    rw [hmap, ih, List.countP_cons, if_pos (by simp), List.length_cons]
    have h2 : (l.filter (fun b => b ≠ a)).length
        = l.countP (fun b => !(decide (b = a))) := by
      rw [← List.countP_eq_length_filter]
      apply List.countP_congr
      intro b _
      simp
    have := countP_add_countP_not (fun b => decide (b = a)) l
    omega

/-! ## Claims -/

/-- **C3.** For every owner (and in every fault scenario), the
per-category counts returned by `get_category_counts` sum to the total
returned by `get_item_count`: the `$group`/`$sum` pipeline partitions
exactly the documents that `count_documents` counts, both under the same
owner filter. -/
theorem get_category_counts_sum_eq_get_item_count
    (fault : Option String) (docs : List Doc) (user_id : Option String) :
    ((get_category_counts fault docs user_id).map Prod.snd).sum =
      get_item_count fault docs user_id := by
  unfold get_category_counts get_item_count
  by_cases hf : fault.isSome
  · simp [hf]
  · simp only [hf, Bool.false_eq_true, if_false]
    cases hq : ownerQuery user_id with
    | none => simp
    | some uq =>
      set matched := docs.filter (matchesOwner uq) with hm
      set cats := matched.map (fun d => getField d "category") with hc
      set pairs := (firstDedup cats).map
        (fun k => (k, matched.countP (fun d => getField d "category" = k)))
        with hp
      have hperm : (List.insertionSort countDesc pairs).Perm pairs :=
        List.perm_insertionSort _ _
      have hcnt : ∀ k, matched.countP (fun d => getField d "category" = k)
          = cats.countP (fun c => c = k) := by
        intro k
        rw [hc, List.countP_map]
        rfl
      calc ((List.insertionSort countDesc pairs).map Prod.snd).sum
          = (pairs.map Prod.snd).sum := (hperm.map Prod.snd).sum_eq
        _ = ((firstDedup cats).map
              (fun k => matched.countP
                (fun d => getField d "category" = k))).sum := by
              rw [hp, List.map_map]; rfl
        _ = ((firstDedup cats).map (fun k => cats.countP (fun c => c = k))).sum := by
              apply congrArg
              exact List.map_congr_left (fun k _ => hcnt k)
        _ = cats.length := sum_counts_firstDedup cats
        _ = matched.length := List.length_map _ _

/-- **C2.** When the endpoint deletes an item that has a (truthy) image
path, the database record is removed first — the final item list is the
erased one in *every* blob outcome — and the endpoint reports success
even when blob deletion raises; in that case the blob set is untouched
(a dangling blob may remain) while the record is gone (never a dangling
item). -/
theorem delete_item_endpoint_db_record_gone (items : List Doc)
    (paths : List String) (raises : Bool) (item_id uid : String)
    (item : Doc) (p : String)
    (hfound : get_item_by_id none items item_id (some uid) = some item)
    (hpath : truthyPath (getField item "path") = some p) :
    (delete_item_endpoint none ⟨items, ⟨paths, raises⟩⟩ item_id uid).1
        = .ok "Item deleted successfully" ∧
    ((delete_item_endpoint none ⟨items, ⟨paths, raises⟩⟩ item_id uid).2).items
        = items.eraseP (itemOwnerPred item_id uid) ∧
    (raises = true →
      ((delete_item_endpoint none ⟨items, ⟨paths, raises⟩⟩ item_id uid).2).blobs.paths
        = paths) ∧
    (raises = false →
      ((delete_item_endpoint none ⟨items, ⟨paths, raises⟩⟩ item_id uid).2).blobs.paths
        = paths.erase p) := by
  unfold get_item_by_id at hfound
  simp only [Option.isSome_none, Bool.false_eq_true, if_false] at hfound
  cases hiid : objectIdOfString item_id with
  | none => rw [hiid] at hfound; cases hfound
  | some iid =>
    rw [hiid] at hfound
    dsimp only at hfound
    cases huq : ownerQuery (some uid) with
    | none => rw [huq] at hfound; cases hfound
    | some uq =>
      rw [huq] at hfound
      dsimp only at hfound
      cases hfind : items.find? (matchesItemQuery iid uq) with
      | none => rw [hfind] at hfound; cases hfound
      | some d0 =>
        rw [hfind] at hfound
        replace hfound : stringifyDoc d0 = item := by
          simpa using hfound
        have hepr : delete_item_endpoint none ⟨items, ⟨paths, raises⟩⟩ item_id uid
            = (.ok "Item deleted successfully",
                ⟨items.eraseP (matchesItemQuery iid uq),
                  if raises then ⟨paths, raises⟩
                  else ⟨paths.erase p, raises⟩⟩) := by
          unfold delete_item_endpoint get_item_by_id delete_item
          simp only [Option.isSome_none, Bool.false_eq_true, if_false,
            hiid, huq, hfind, Option.map_some, hfound, hpath]
          cases raises with
          | true => simp [delete_image, hfound, hpath]
          | false =>
            by_cases hmem : p ∈ paths <;>
              simp [delete_image, hfound, hpath, hmem, List.erase_of_not_mem]
        have hpred : itemOwnerPred item_id uid = matchesItemQuery iid uq := by
          funext d
          simp [itemOwnerPred, hiid, huq]
        rw [hepr, hpred]
        cases raises <;> simp

/-- Concrete one-item state used to witness the delete-endpoint claim. -/
def sampleStoredItem : Doc :=
  [("_id", .oid "aaaaaaaaaaaaaaaaaaaaaaaa"),
    ("user_id", .oid "bbbbbbbbbbbbbbbbbbbbbbbb"),
    ("path", .str "wardrobe/img.jpg")]

/-- `sampleStoredItem` as returned by `get_item_by_id` (ids stringified). -/
def sampleFetchedItem : Doc :=
  [("_id", .str "aaaaaaaaaaaaaaaaaaaaaaaa"),
    ("user_id", .str "bbbbbbbbbbbbbbbbbbbbbbbb"),
    ("path", .str "wardrobe/img.jpg")]

/-- Witness for **C2** at a concrete one-item, one-blob state whose blob
deletion raises: success is reported, the record is gone, the blob
dangles. -/
theorem delete_item_endpoint_db_record_gone_witness :
    (delete_item_endpoint none ⟨[sampleStoredItem], ⟨["wardrobe/img.jpg"], true⟩⟩
        "aaaaaaaaaaaaaaaaaaaaaaaa" "bbbbbbbbbbbbbbbbbbbbbbbb").1
        = .ok "Item deleted successfully" ∧
    ((delete_item_endpoint none ⟨[sampleStoredItem], ⟨["wardrobe/img.jpg"], true⟩⟩
        "aaaaaaaaaaaaaaaaaaaaaaaa" "bbbbbbbbbbbbbbbbbbbbbbbb").2).items
        = [sampleStoredItem].eraseP
            (itemOwnerPred "aaaaaaaaaaaaaaaaaaaaaaaa" "bbbbbbbbbbbbbbbbbbbbbbbb") ∧
    ((delete_item_endpoint none ⟨[sampleStoredItem], ⟨["wardrobe/img.jpg"], true⟩⟩
        "aaaaaaaaaaaaaaaaaaaaaaaa" "bbbbbbbbbbbbbbbbbbbbbbbb").2).blobs.paths
        = ["wardrobe/img.jpg"] :=
  (fun h => ⟨h.1, h.2.1, h.2.2.1 rfl⟩)
    (delete_item_endpoint_db_record_gone [sampleStoredItem] ["wardrobe/img.jpg"]
      true "aaaaaaaaaaaaaaaaaaaaaaaa" "bbbbbbbbbbbbbbbbbbbbbbbb"
      sampleFetchedItem "wardrobe/img.jpg" (by rfl) (by rfl))

/-- **C6 (counterexample).** With `alpha_threshold = 200` and pixels of
alpha 80 and 120, no pixel exceeds the threshold, yet the code's
fallback (`alpha > 64`) keeps both pixels while the claimed fallback
(`alpha > 200 / 2 = 100`) would keep only the second: the fallback
threshold is the constant 64, not half the given threshold. -/
theorem select_foreground_half_threshold_counterexample :
    (∀ px ∈ [RGBA.mk 0 0 0 80, RGBA.mk 1 1 1 120], ¬ 200 < px.a) ∧
    select_foreground [RGBA.mk 0 0 0 80, RGBA.mk 1 1 1 120] 200
      ≠ [RGBA.mk 0 0 0 80, RGBA.mk 1 1 1 120].filter
          (fun p => 200 / 2 < p.a) ∧
    select_foreground [RGBA.mk 0 0 0 80, RGBA.mk 1 1 1 120] 200
      ≠ select_foreground_spec [RGBA.mk 0 0 0 80, RGBA.mk 1 1 1 120] 200 := by
  refine ⟨by decide, by decide, by decide⟩

/-- **C6 (amended).** Whenever no pixel's alpha exceeds the given
threshold, `extract_color_palette` falls back to the pixels whose alpha
exceeds the fixed constant 64 — half of the *default* threshold 128,
but independent of the threshold actually given — and, if none
qualify, to all pixels with nonzero alpha. -/
theorem select_foreground_fallback_64 (pixels : List RGBA) (t : Nat)
    (cluster : List RGB → List Nat)
    (h1 : ∀ px ∈ pixels, ¬ t < px.a) :
    (pixels.filter (fun p => 64 < p.a) ≠ [] →
      select_foreground pixels t = pixels.filter (fun p => 64 < p.a) ∧
      extract_color_palette pixels cluster t =
        paletteFromLabels
          ((pixels.filter (fun p => 64 < p.a)).map (fun p => (p.r, p.g, p.b)))
          (cluster ((pixels.filter (fun p => 64 < p.a)).map
            (fun p => (p.r, p.g, p.b))))) ∧
    (pixels.filter (fun p => 64 < p.a) = [] →
      select_foreground pixels t = pixels.filter (fun p => 0 < p.a)) := by
  have hm1 : pixels.filter (fun p => t < p.a) = [] := by
    rw [List.filter_eq_nil_iff]
    intro px hpx
    simpa using h1 px hpx
  constructor
  · intro h2
    constructor
    · unfold select_foreground
      simp [hm1, h2]
    · unfold extract_color_palette select_foreground
      simp [hm1, h2]
  · intro h2
    unfold select_foreground
    simp [hm1, h2]

/-- Witness for the amended **C6** fallback behaviour at threshold 200
with alphas 80 and 120 (both above 64, neither above 200). -/
theorem select_foreground_fallback_64_witness :
    select_foreground [RGBA.mk 0 0 0 80, RGBA.mk 1 1 1 120] 200
      = [RGBA.mk 0 0 0 80, RGBA.mk 1 1 1 120].filter (fun p => 64 < p.a) ∧
    extract_color_palette [RGBA.mk 0 0 0 80, RGBA.mk 1 1 1 120]
        (fun l => List.replicate l.length 0) 200 =
      paletteFromLabels
        (([RGBA.mk 0 0 0 80, RGBA.mk 1 1 1 120].filter
          (fun p => 64 < p.a)).map (fun p => (p.r, p.g, p.b)))
        ((fun l => List.replicate l.length 0)
          (([RGBA.mk 0 0 0 80, RGBA.mk 1 1 1 120].filter
            (fun p => 64 < p.a)).map (fun p => (p.r, p.g, p.b)))) :=
  (select_foreground_fallback_64 [RGBA.mk 0 0 0 80, RGBA.mk 1 1 1 120] 200
    (fun l => List.replicate l.length 0) (by decide)).1 (by decide)

/-- `updateFirstWhere` relates the old and new lists pointwise: every
new element is its old element, possibly passed through `f`. -/
theorem forall2_updateFirstWhere {α : Type} (P : α → α → Prop)
    (p : α → Bool) (f : α → α) (l : List α)
    (hf : ∀ a, P a (f a)) (hrefl : ∀ a, P a a) :
    List.Forall₂ P l (updateFirstWhere p f l) := by
  induction l with
  | nil => exact List.Forall₂.nil
  | cons a l ih =>
    rw [updateFirstWhere]
    by_cases h : p a
    · simp only [h, if_true]
      exact List.Forall₂.cons (hf a) (List.forall₂_same.mpr (fun x _ => hrefl x))
    · simp only [h, Bool.false_eq_true, if_false]
      exact List.Forall₂.cons (hrefl a) ih

/-- **C7 (counterexample).** A login via `google_auth_v2` whose provider
ID matches the stored account but whose token carries a different email
*changes* the stored email: the SQL `ON DUPLICATE KEY UPDATE` refreshes
`email`, `name` and `picture_url`, so they are not "left unchanged". -/
theorem google_auth_upsert_overwrites_email :
    (googleAuthUpsert
        [{ auth_provider_id := "sub1", auth_provider := "google",
           email := "old@example.com", name := some "Old Name",
           picture_url := none, created_at := 0, last_login := 0 }]
        "sub1" "new@example.com" (some "New Name") none 5).map
      (fun a => a.email)
    ≠ [{ auth_provider_id := "sub1", auth_provider := "google",
         email := "old@example.com", name := some "Old Name",
         picture_url := none, created_at := 0, last_login := 0 :
         Account }].map (fun a => a.email) := by
  decide

/-- **C7 (amended).** The *Mongo* upsert `create_or_get_user` behaves as
the claim says: a login with no matching `google_id` inserts a new
record carrying the token's fields, and a login matching an existing
account returns that account and touches nothing but `last_login` —
every stored field other than `last_login`, in every document, is
unchanged.  The *SQL* upsert of `google_auth_v2`, by contrast, also
refreshes `email`, `name` and `picture_url` from the token
(see the counterexample). -/
theorem create_or_get_user_upsert (users : List Doc) (g : GoogleUser)
    (now : Nat) (fresh : String) :
    match users.find?
        (fun u => getField u "google_id" == some (.str g.google_id)) with
    | none =>
      (create_or_get_user users g now fresh).2
        = users ++ [(create_or_get_user users g now fresh).1] ∧
      getField (create_or_get_user users g now fresh).1 "google_id"
        = some (.str g.google_id) ∧
      getField (create_or_get_user users g now fresh).1 "email"
        = some (.str g.email) ∧
      getField (create_or_get_user users g now fresh).1 "name"
        = some (.str g.name) ∧
      getField (create_or_get_user users g now fresh).1 "last_login"
        = some (.time (now + 1))
    | some existing =>
      (create_or_get_user users g now fresh).1 = existing ∧
      (create_or_get_user users g now fresh).2
        = updateFirstWhere
            (fun d => getField d "_id" == getField existing "_id")
            (fun d => setField d "last_login" (.time now)) users ∧
      List.Forall₂
        (fun dOld dNew => ∀ k, k ≠ "last_login" →
          getField dNew k = getField dOld k)
        users (create_or_get_user users g now fresh).2 := by
  cases hfind : users.find?
      (fun u => getField u "google_id" == some (.str g.google_id)) with
  | none =>
    unfold create_or_get_user
    rw [hfind]
    refine ⟨rfl, ?_, ?_, ?_, ?_⟩ <;>
      · cases hp : g.picture <;>
          simp [hp, getField_cons, setField, getField]
  | some existing =>
    unfold create_or_get_user
    rw [hfind]
    refine ⟨rfl, rfl, ?_⟩
    exact forall2_updateFirstWhere _ _ _ _
      (fun d k hk => getField_setField_other d "last_login" k _ (Ne.symm hk))
      (fun d k _ => rfl)

/-- **C8.** Every item-store operation translates a raised driver
exception into its neutral failure indicator instead of propagating it:
`None` for add and get-by-id, `[]` for the list-returning queries,
`False` for update and delete, `0` for the item count and the empty
dict for the category counts. -/
theorem mongo_manager_neutral_on_fault (e : String) (docs : List Doc)
    (item_data upd : Doc) (now : Nat) (fresh item_id cat q uid : String)
    (user_id : Option String) :
    (add_clothing_item (some e) docs item_data now fresh).1 = none ∧
    get_all_items (some e) docs uid = [] ∧
    get_item_by_id (some e) docs item_id user_id = none ∧
    (update_item (some e) docs item_id upd user_id now).1 = false ∧
    (delete_item (some e) docs item_id user_id).1 = false ∧
    search_items (some e) docs q user_id = [] ∧
    get_items_by_category (some e) docs cat user_id = [] ∧
    get_categories (some e) docs user_id = [] ∧
    get_item_count (some e) docs user_id = 0 ∧
    get_category_counts (some e) docs user_id = [] := by
  refine ⟨?_, ?_, ?_, ?_, ?_, ?_, ?_, ?_, ?_, ?_⟩ <;>
    simp [add_clothing_item, get_all_items, get_item_by_id, update_item,
      delete_item, search_items, get_items_by_category, get_categories,
      get_item_count, get_category_counts]

/-- The percentage of a label occurring in a non-empty label list lies
in (0, 100]. -/
theorem pct_mem_bounds (labels : List Nat) (hne : labels ≠ []) (lab : Nat)
    (hlab : lab ∈ labels) :
    0 ≤ ((labels.count lab : ℚ) / (labels.length : ℚ)) * 100 ∧
    ((labels.count lab : ℚ) / (labels.length : ℚ)) * 100 ≤ 100 := by
  have hn : 0 < labels.length := List.length_pos.mpr hne
  have hnq : (0 : ℚ) < (labels.length : ℚ) := by exact_mod_cast hn
  have hc1 : 0 < labels.count lab := List.count_pos_iff.mpr hlab
  have hcle : labels.count lab ≤ labels.length := List.count_le_length _ _
  constructor
  · positivity
  · have hdiv : (labels.count lab : ℚ) / (labels.length : ℚ) ≤ 1 := by
      rw [div_le_one hnq]
      exact_mod_cast hcle
    calc ((labels.count lab : ℚ) / (labels.length : ℚ)) * 100
        ≤ 1 * 100 := by
          apply mul_le_mul_of_nonneg_right hdiv
          norm_num
      _ = 100 := by norm_num

/-- **C4.** Whenever the clustering step yields labels (the pipeline
returns a palette rather than raising), every percentage in the palette
lies in [0, 100] and the palette is sorted descending by percentage. -/
theorem extract_color_palette_percentages (pixels_rgba : List RGBA)
    (cluster : List RGB → List Nat) (t : Nat)
    (hne : cluster ((select_foreground pixels_rgba t).map
        (fun p => (p.r, p.g, p.b))) ≠ []) :
    (∀ pr ∈ extract_color_palette pixels_rgba cluster t,
      0 ≤ pr.2 ∧ pr.2 ≤ 100) ∧
    List.Sorted pctDesc (extract_color_palette pixels_rgba cluster t) := by
  unfold extract_color_palette paletteFromLabels
  set pixels := (select_foreground pixels_rgba t).map (fun p => (p.r, p.g, p.b))
  set labels := cluster pixels with hl
  constructor
  · intro pr hpr
    rw [List.mem_insertionSort] at hpr
    have h2 : pr.2 ∈ (firstDedup labels).map
        (fun lab => ((labels.count lab : ℚ) / (labels.length : ℚ)) * 100) := by
      have := List.of_mem_zip (by simpa using hpr)
      exact this.2
    rcases List.mem_map.mp h2 with ⟨lab, hlab, hpct⟩
    rw [← hpct]
    exact pct_mem_bounds labels hne lab (mem_of_mem_firstDedup hlab)
  · exact List.sorted_insertionSort pctDesc _

/-- Witness for **C4** on two pixels clustered into two groups. -/
theorem extract_color_palette_percentages_witness :
    (∀ pr ∈ extract_color_palette [RGBA.mk 10 20 30 200, RGBA.mk 50 60 70 220]
        (fun l => List.range l.length) 128,
      0 ≤ pr.2 ∧ pr.2 ≤ 100) ∧
    List.Sorted pctDesc
      (extract_color_palette [RGBA.mk 10 20 30 200, RGBA.mk 50 60 70 220]
        (fun l => List.range l.length) 128) :=
  extract_color_palette_percentages
    [RGBA.mk 10 20 30 200, RGBA.mk 50 60 70 220]
    (fun l => List.range l.length) 128 (by decide)

/-- The two label orders used by the source — `np.unique` (sorted) for
the colors and `Counter` (first occurrence) for the percentages — have
the same length. -/
theorem npUnique_length (labels : List Nat) :
    (npUnique labels).length = (firstDedup labels).length := by
  unfold npUnique
  exact List.length_insertionSort _ _

/-- Casting a sum of percentages. -/
theorem sum_pct_eq (labels : List Nat) (hne : labels ≠ []) :
    ((firstDedup labels).map
      (fun lab => ((labels.count lab : ℚ) / (labels.length : ℚ)) * 100)).sum
      = 100 := by
  have hn : 0 < labels.length := List.length_pos.mpr hne
  have hnq : ((labels.length : ℚ)) ≠ 0 := by
    exact_mod_cast Nat.pos_iff_ne_zero.mp hn
  have hstep : (firstDedup labels).map
      (fun lab => ((labels.count lab : ℚ) / (labels.length : ℚ)) * 100)
      = (firstDedup labels).map
      (fun lab => ((labels.count lab : ℚ)) * (100 / (labels.length : ℚ))) := by
    apply List.map_congr_left
    intro lab _
    field_simp
  rw [hstep, List.sum_map_mul_right]
  have hcast : ((firstDedup labels).map
      (fun lab => ((labels.count lab : ℚ)))).sum
      = (((firstDedup labels).map (fun lab => labels.count lab)).sum : ℚ) := by
    induction firstDedup labels with
    | nil => simp
    | cons a l ih => simp [ih]
  rw [hcast]
  have hcnt : ((firstDedup labels).map (fun lab => labels.count lab)).sum
      = labels.length := by
    have hcongr : (firstDedup labels).map (fun lab => labels.count lab)
        = (firstDedup labels).map
            (fun lab => labels.countP (fun b => b = lab)) := by
      apply List.map_congr_left
      intro lab _
      apply List.countP_congr
      intro x _
      simp
    rw [hcongr]
    exact sum_counts_firstDedup labels
  rw [hcnt]
  field_simp

/-- **C10.** Whenever the palette is non-empty (the clustering produced
labels), the percentages sum to exactly 100: each percentage is its
cluster's pixel count over the total *clustered* pixel count, so the
shares partition the clustered foreground pixels, not the whole image. -/
theorem extract_color_palette_sum_eq_100 (pixels_rgba : List RGBA)
    (cluster : List RGB → List Nat) (t : Nat)
    (hne : cluster ((select_foreground pixels_rgba t).map
        (fun p => (p.r, p.g, p.b))) ≠ []) :
    ((extract_color_palette pixels_rgba cluster t).map Prod.snd).sum = 100 := by
  unfold extract_color_palette paletteFromLabels
  set pixels := (select_foreground pixels_rgba t).map (fun p => (p.r, p.g, p.b))
  set labels := cluster pixels with hl
  set colors := (npUnique labels).map (clusterMeanColor pixels labels)
    with hcolors
  set pcts := (firstDedup labels).map
    (fun lab => ((labels.count lab : ℚ) / (labels.length : ℚ)) * 100)
    with hpcts
  have hperm : (List.insertionSort pctDesc (colors.zip pcts)).Perm
      (colors.zip pcts) := List.perm_insertionSort _ _
  rw [(hperm.map Prod.snd).sum_eq]
  have hlen : pcts.length ≤ colors.length := by
    rw [hcolors, hpcts, List.length_map, List.length_map]
    exact le_of_eq (npUnique_length labels).symm
  rw [List.map_snd_zip _ _ hlen, hpcts]
  exact sum_pct_eq labels hne

/-- Witness for **C10** on three pixels, each its own cluster. -/
theorem extract_color_palette_sum_eq_100_witness :
    ((extract_color_palette
      [RGBA.mk 10 20 30 200, RGBA.mk 50 60 70 220, RGBA.mk 10 20 30 210]
      (fun l => List.range l.length) 128).map Prod.snd).sum = 100 :=
  extract_color_palette_sum_eq_100
    [RGBA.mk 10 20 30 200, RGBA.mk 50 60 70 220, RGBA.mk 10 20 30 210]
    (fun l => List.range l.length) 128 (by decide)

/-! ## C1: add then get roundtrip -/

/-- Field view of `stringifyDoc`: `_id` and `user_id` are passed through
`str(…)`, everything else is untouched. -/
theorem getField_stringifyDoc (d : Doc) (k : String) :
    getField (stringifyDoc d) k =
      if k = "_id" then (getField d "_id").map (fun v => .str (pyStr v))
      else if k = "user_id" then (getField d "user_id").map (fun v => .str (pyStr v))
      else getField d k := by
  unfold stringifyDoc
  cases hid : getField d "_id" with
  | none =>
    dsimp only
    cases huid : getField d "user_id" with
    | none =>
      dsimp only
      by_cases h1 : k = "_id"
      · simp [h1, hid]
      · by_cases h2 : k = "user_id" <;> simp [h1, h2, huid]
    | some v =>
      dsimp only
      by_cases h1 : k = "_id"
      · simp [h1, hid, getField_setField_other d "user_id" "_id" _ (by decide)]
      · by_cases h2 : k = "user_id"
        · simp [h1, h2]
        · simp [h1, h2, getField_setField_other d "user_id" k _ (Ne.symm h2)]
  | some v =>
    dsimp only
    have hmid : getField (setField d "_id" (.str (pyStr v))) "user_id"
        = getField d "user_id" :=
      getField_setField_other d "_id" "user_id" _ (by decide)
    rw [hmid]
    cases huid : getField d "user_id" with
    | none =>
      dsimp only
      by_cases h1 : k = "_id"
      · simp [h1, hid]
      · by_cases h2 : k = "user_id"
        · simp [h1, h2, huid, hmid]
        · simp [h1, h2, getField_setField_other d "_id" k _ (Ne.symm h1)]
    | some w =>
      dsimp only
      by_cases h1 : k = "_id"
      · simp [h1, hid,
          getField_setField_other (setField d "_id" (.str (pyStr v)))
            "user_id" "_id" _ (by decide)]
      · by_cases h2 : k = "user_id"
        · simp [h1, h2, huid]
        · rw [getField_setField_other _ "user_id" k _ (Ne.symm h2),
            getField_setField_other d "_id" k _ (Ne.symm h1)]
          simp [h1, h2]

/-- A valid `ObjectId` string has 24 characters, hence is non-empty. -/
theorem isValidOid_ne_empty {s : String} (h : isValidOid s = true) :
    s ≠ "" := by
  intro he
  rw [he] at h
  exact absurd h (by decide)

/-- Modelled from the spec: "the returned record equals the input plus
server-stamped timestamps" — the input fields with `created_at` and
`updated_at` stamped, and nothing else.  Used to compare against what
`get_item_by_id` actually returns. -/
def specReturnedRecord (input : Doc) (t₁ t₂ : Nat) : Doc :=
  setField (setField input "created_at" (.time t₁)) "updated_at" (.time t₂)

/-- The record `get_item_by_id` actually returns after an
`add_clothing_item` of `input`: the spec record plus the stringified
`_id`. -/
def storedReturnedRecord (input : Doc) (now : Nat) (s fresh : String) : Doc :=
  stringifyDoc
    (setField
      (setField
        (setField (setField input "created_at" (.time now))
          "updated_at" (.time (now + 1)))
        "user_id" (.oid s))
      "_id" (.oid fresh))

/-- **C1 (counterexample).** Adding a one-field item and fetching it
back returns a record that is *not* dict-equal to "input fields plus
timestamps": it additionally carries the stringified `_id`. -/
theorem add_then_get_counterexample :
    (add_clothing_item none []
      [("custom_name", .str "sock"),
        ("user_id", .str "bbbbbbbbbbbbbbbbbbbbbbbb")]
      0 "aaaaaaaaaaaaaaaaaaaaaaaa").1 = some "aaaaaaaaaaaaaaaaaaaaaaaa" ∧
    get_item_by_id none
      (add_clothing_item none []
        [("custom_name", .str "sock"),
          ("user_id", .str "bbbbbbbbbbbbbbbbbbbbbbbb")]
        0 "aaaaaaaaaaaaaaaaaaaaaaaa").2
      "aaaaaaaaaaaaaaaaaaaaaaaa" (some "bbbbbbbbbbbbbbbbbbbbbbbb")
      = some
        [("custom_name", .str "sock"),
          ("user_id", .str "bbbbbbbbbbbbbbbbbbbbbbbb"),
          ("created_at", .time 0), ("updated_at", .time 1),
          ("_id", .str "aaaaaaaaaaaaaaaaaaaaaaaa")] ∧
    ¬ Doc.equiv
        [("custom_name", .str "sock"),
          ("user_id", .str "bbbbbbbbbbbbbbbbbbbbbbbb"),
          ("created_at", .time 0), ("updated_at", .time 1),
          ("_id", .str "aaaaaaaaaaaaaaaaaaaaaaaa")]
        (specReturnedRecord
          [("custom_name", .str "sock"),
            ("user_id", .str "bbbbbbbbbbbbbbbbbbbbbbbb")] 0 1) :=
  ⟨by rfl, by rfl, fun h => absurd (h "_id") (by decide)⟩

/-- **C1 (amended).** An item accepted by `add_clothing_item` (valid
owner id, no caller-supplied `_id`, fresh ObjectId unused) and fetched
back by the returned id and the same owner yields exactly the input
fields plus the server-stamped `created_at`/`updated_at` *and* the
stringified `_id` equal to the returned id (dict equality). -/
theorem add_then_get_roundtrip (docs : List Doc) (input : Doc)
    (now : Nat) (fresh s : String)
    (huid : getField input "user_id" = some (.str s))
    (hs : isValidOid s = true)
    (hnoid : getField input "_id" = none)
    (hfv : isValidOid fresh = true)
    (hunused : ∀ d ∈ docs, getField d "_id" ≠ some (.oid fresh)) :
    (add_clothing_item none docs input now fresh).1 = some fresh ∧
    get_item_by_id none (add_clothing_item none docs input now fresh).2
        fresh (some s)
      = some (storedReturnedRecord input now s fresh) ∧
    Doc.equiv (storedReturnedRecord input now s fresh)
      (setField (specReturnedRecord input now (now + 1)) "_id" (.str fresh)) := by
  set d₁ := setField input "created_at" (.time now) with hd₁
  set d₂ := setField d₁ "updated_at" (.time (now + 1)) with hd₂
  set d₃ := setField d₂ "user_id" (.oid s) with hd₃
  set d₄ := setField d₃ "_id" (.oid fresh) with hd₄
  have h2uid : getField d₂ "user_id" = some (.str s) := by
    rw [hd₂, hd₁, getField_setField_other _ _ _ _ (by decide),
      getField_setField_other _ _ _ _ (by decide)]
    exact huid
  have h2id : getField d₂ "_id" = none := by
    rw [hd₂, hd₁, getField_setField_other _ _ _ _ (by decide),
      getField_setField_other _ _ _ _ (by decide)]
    exact hnoid
  have h3id : getField d₃ "_id" = none := by
    rw [hd₃, getField_setField_other _ _ _ _ (by decide)]
    exact h2id
  have hoids : objectIdOfString s = some s := by
    simp [objectIdOfString, hs]
  have hoidf : objectIdOfString fresh = some fresh := by
    simp [objectIdOfString, hfv]
  have hadd : add_clothing_item none docs input now fresh
      = (some fresh, docs ++ [d₄]) := by
    unfold add_clothing_item
    simp only [Option.isSome_none, Bool.false_eq_true, if_false, ← hd₁, ← hd₂,
      h2uid, hoids, ← hd₃, h3id, ← hd₄]
  have hq4 : matchesItemQuery fresh (some s) d₄ = true := by
    have h4uid : getField d₄ "user_id" = some (.oid s) := by
      rw [hd₄, getField_setField_other _ _ _ _ (by decide), hd₃,
        getField_setField_same]
    simp [matchesItemQuery, hd₄, h4uid]
  have hfind : (docs ++ [d₄]).find? (matchesItemQuery fresh (some s))
      = some d₄ := by
    rw [List.find?_append]
    have hnone : docs.find? (matchesItemQuery fresh (some s)) = none := by
      rw [List.find?_eq_none]
      intro d hd
      simp only [matchesItemQuery, Bool.and_eq_true, beq_iff_eq]
      intro hcon
      exact absurd hcon.1 (hunused d hd)
    rw [hnone]
    simp [hq4]
  have hget : get_item_by_id none (docs ++ [d₄]) fresh (some s)
      = some (stringifyDoc d₄) := by
    unfold get_item_by_id
    have hov : ownerQuery (some s) = some (some s) := by
      simp [ownerQuery, isValidOid_ne_empty hs, hoids]
    simp only [Option.isSome_none, Bool.false_eq_true, if_false, hoidf, hov,
      hfind]
    rfl
  refine ⟨by rw [hadd], ?_, ?_⟩
  · rw [hadd]
    exact hget
  · intro k
    have hspec : specReturnedRecord input now (now + 1) = d₂ := by
      rw [specReturnedRecord, hd₂, hd₁]
    unfold storedReturnedRecord
    rw [← hd₁, ← hd₂, ← hd₃, ← hd₄, getField_stringifyDoc, hspec]
    by_cases h1 : k = "_id"
    · subst h1
      rw [if_pos rfl]
      have h4 : getField d₄ "_id" = some (.oid fresh) := by
        rw [hd₄]
        exact getField_setField_same _ _ _
      rw [h4, getField_setField_same]
      rfl
    · rw [if_neg h1]
      by_cases h2 : k = "user_id"
      · subst h2
        rw [if_pos rfl]
        have h4 : getField d₄ "user_id" = some (.oid s) := by
          rw [hd₄, getField_setField_other _ _ _ _ (by decide), hd₃]
          exact getField_setField_same _ _ _
        have hrhs : getField (setField d₂ "_id" (.str fresh)) "user_id"
            = some (.str s) := by
          rw [getField_setField_other _ _ _ _ (by decide)]
          exact h2uid
        rw [h4, hrhs]
        rfl
      · rw [if_neg h2]
        have h4 : getField d₄ k = getField d₂ k := by
          rw [hd₄, getField_setField_other _ _ _ _ (Ne.symm h1), hd₃,
            getField_setField_other _ _ _ _ (Ne.symm h2)]
        have hrhs : getField (setField d₂ "_id" (.str fresh)) k
            = getField d₂ k := by
          rw [getField_setField_other _ _ _ _ (Ne.symm h1)]
        rw [h4, hrhs]

/-- Witness for the amended **C1** at a concrete one-field item added to
an empty collection. -/
theorem add_then_get_roundtrip_witness :
    (add_clothing_item none []
      [("custom_name", .str "scarf"),
        ("user_id", .str "bbbbbbbbbbbbbbbbbbbbbbbb")]
      3 "eeeeeeeeeeeeeeeeeeeeeeee").1 = some "eeeeeeeeeeeeeeeeeeeeeeee" ∧
    get_item_by_id none
      (add_clothing_item none []
        [("custom_name", .str "scarf"),
          ("user_id", .str "bbbbbbbbbbbbbbbbbbbbbbbb")]
        3 "eeeeeeeeeeeeeeeeeeeeeeee").2
      "eeeeeeeeeeeeeeeeeeeeeeee" (some "bbbbbbbbbbbbbbbbbbbbbbbb")
      = some (storedReturnedRecord
          [("custom_name", .str "scarf"),
            ("user_id", .str "bbbbbbbbbbbbbbbbbbbbbbbb")]
          3 "bbbbbbbbbbbbbbbbbbbbbbbb" "eeeeeeeeeeeeeeeeeeeeeeee") ∧
    Doc.equiv
      (storedReturnedRecord
        [("custom_name", .str "scarf"),
          ("user_id", .str "bbbbbbbbbbbbbbbbbbbbbbbb")]
        3 "bbbbbbbbbbbbbbbbbbbbbbbb" "eeeeeeeeeeeeeeeeeeeeeeee")
      (setField
        (specReturnedRecord
          [("custom_name", .str "scarf"),
            ("user_id", .str "bbbbbbbbbbbbbbbbbbbbbbbb")] 3 4)
        "_id" (.str "eeeeeeeeeeeeeeeeeeeeeeee")) :=
  add_then_get_roundtrip []
    [("custom_name", .str "scarf"),
      ("user_id", .str "bbbbbbbbbbbbbbbbbbbbbbbb")]
    3 "eeeeeeeeeeeeeeeeeeeeeeee" "bbbbbbbbbbbbbbbbbbbbbbbb"
    (by rfl) (by decide) (by rfl) (by decide) (by intro d hd; cases hd)

/-! ## C5 and C9: classifier-pipeline properties -/

/-- The exponentials of a non-empty logit row have positive sum. -/
theorem sum_exp_pos (logits : List ℝ) (h : logits ≠ []) :
    0 < (logits.map Real.exp).sum := by
  apply List.sum_pos
  · intro x hx
    rcases List.mem_map.mp hx with ⟨y, _, hy⟩
    rw [← hy]
    exact Real.exp_pos y
  · simpa using h

/-- Softmax of a non-empty logit row sums to 1. -/
theorem softmax_sum_eq_one (logits : List ℝ) (h : logits ≠ []) :
    (softmax logits).sum = 1 := by
  unfold softmax
  have hS : 0 < (logits.map Real.exp).sum := sum_exp_pos logits h
  have hstep : logits.map
      (fun x => Real.exp x / (logits.map Real.exp).sum)
      = logits.map
      (fun x => Real.exp x * ((logits.map Real.exp).sum)⁻¹) := by
    apply List.map_congr_left
    intro x _
    rw [div_eq_mul_inv]
  rw [hstep, List.sum_map_mul_right, mul_inv_cancel₀ (ne_of_gt hS)]

/-- **C5.** With the fixed category list, the classification pipeline
softmaxes the per-category logits and returns the categories ranked by
probability: the returned labels are a permutation of
`CLOTHING_CATEGORIES`, the confidences sum to 1, and the list is sorted
descending by confidence.  (`classify_item` serves `results[0]` of this
very ranking; `classify_fashion_image` returns it whole.) -/
theorem classify_fashion_image_softmax_ranking (m : ModelFun)
    (img : ImageData)
    (hlen : (m (CLOTHING_CATEGORIES.map (fun c => "a photo of " ++ pyStrip c))
        img).length = CLOTHING_CATEGORIES.length) :
    ((classify_fashion_image (some m) CLOTHING_CATEGORIES img).map
        Prod.fst).Perm CLOTHING_CATEGORIES ∧
    ((classify_fashion_image (some m) CLOTHING_CATEGORIES img).map
        Prod.snd).sum = 1 ∧
    List.Sorted confDesc
      (classify_fashion_image (some m) CLOTHING_CATEGORIES img) := by
  have hstrip : CLOTHING_CATEGORIES.map pyStrip = CLOTHING_CATEGORIES := by
    decide
  unfold classify_fashion_image rankCategories
  set logits := m (CLOTHING_CATEGORIES.map
    (fun c => "a photo of " ++ pyStrip c)) img with hlg
  have hplen : (softmax logits).length = (CLOTHING_CATEGORIES.map pyStrip).length := by
    rw [softmax, List.length_map, List.length_map, hlen]
  have hperm : (List.insertionSort confDesc
      ((CLOTHING_CATEGORIES.map pyStrip).zip (softmax logits))).Perm
      ((CLOTHING_CATEGORIES.map pyStrip).zip (softmax logits)) :=
    List.perm_insertionSort _ _
  have hne : logits ≠ [] := by
    intro hnil
    rw [hnil] at hlen
    exact absurd hlen (by decide)
  refine ⟨?_, ?_, ?_⟩
  · have h1 := hperm.map Prod.fst
    rw [List.map_fst_zip _ _ (le_of_eq hplen.symm), hstrip] at h1
    exact h1
  · have h2 := hperm.map Prod.snd
    rw [List.map_snd_zip _ _ (le_of_eq hplen)] at h2
    rw [h2.sum_eq]
    exact softmax_sum_eq_one logits hne
  · exact List.sorted_insertionSort confDesc _

/-- Witness for **C5** with a model producing eleven zero logits. -/
theorem classify_fashion_image_softmax_ranking_witness :
    ((classify_fashion_image (some (fun _ _ => List.replicate 11 0))
        CLOTHING_CATEGORIES []).map Prod.fst).Perm CLOTHING_CATEGORIES ∧
    ((classify_fashion_image (some (fun _ _ => List.replicate 11 0))
        CLOTHING_CATEGORIES []).map Prod.snd).sum = 1 ∧
    List.Sorted confDesc
      (classify_fashion_image (some (fun _ _ => List.replicate 11 0))
        CLOTHING_CATEGORIES []) :=
  classify_fashion_image_softmax_ranking (fun _ _ => List.replicate 11 0)
    [] (by rfl)

/-- **C9.** The inference path is deterministic: running the endpoint
twice in a row on the same image (same fixed pretrained weights, the
model loaded once and cached) yields the same response, and the second
run leaves the process state exactly where the first one put it. -/
theorem classify_item_endpoint_deterministic (pretrained : Option ModelFun)
    (p : ClassifierProc) (img : ImageData) :
    (classify_item_endpoint pretrained
        ((classify_item_endpoint pretrained p img).2) img).1
      = (classify_item_endpoint pretrained p img).1 ∧
    (classify_item_endpoint pretrained
        ((classify_item_endpoint pretrained p img).2) img).2
      = (classify_item_endpoint pretrained p img).2 := by
  cases hc : p.cache with
  | some r =>
    cases r with
    | none => simp [classify_item_endpoint, get_cached_model, hc]
    | some m =>
      cases hr : rankCategories m CLOTHING_CATEGORIES img <;>
        simp [classify_item_endpoint, get_cached_model, hc, hr]
  | none =>
    cases pretrained with
    | none => simp [classify_item_endpoint, get_cached_model, hc]
    | some m =>
      cases hr : rankCategories m CLOTHING_CATEGORIES img <;>
        simp [classify_item_endpoint, get_cached_model, hc, hr]

end GreenFashion
